import Mathlib

/-!
# pyMIC buffer manager (`src/pymicimpl_buffers.cc`)

A shallow embedding of the six functions of the buffer manager:
`buffer_allocate`, `buffer_release`, `buffer_copy_to_target`, `buffer_copy_to_host`,
`buffer_copy_on_device` and `buffer_translate_pointer`.

Host memory and the memory of every device are byte maps indexed by address.  The offload
runtime (the "device channel") keeps, per device, a table that associates a host address
range with the device address of the allocation made for it.  Every function of the source
becomes a function on this state which also records, in program order, the system calls and
offload pragmas it issues.
-/

namespace pymic

/-! ## Machine words and byte memories -/

/-- Number of values of `uintptr_t` and `size_t` on the 64-bit target. -/
def UINTPTR_MOD : Nat := 2 ^ 64

/-- The value `(void *) -1` that `mmap` returns when it fails. -/
def MAP_FAILED : Nat := 2 ^ 64 - 1

/-- Modelled from the spec: `sizeof(buffer_descriptor)`.  The struct is declared in
`pymicimpl_buffers.h`, which is not part of the sources at hand; the spec gives it two
8-byte fields, `device_address` (the field `pointer` of the code) followed by `size`. -/
def sizeof_buffer_descriptor : Nat := 16

/-- Modelled from the spec: byte offset of the field `pointer` inside `buffer_descriptor`
(the code reads the same word through `*reinterpret_cast<uintptr_t *>(dst)`). -/
def offsetof_pointer : Nat := 0

/-- Modelled from the spec: byte offset of the field `size` inside `buffer_descriptor`. -/
def offsetof_size : Nat := 8

/-- A byte-addressed memory. -/
abbrev Mem := Nat → Nat

/-- Pointer arithmetic `p + off` on a 64-bit machine. -/
def ptr_add (p off : Nat) : Nat := (p + off) % UINTPTR_MOD

/-- Little-endian load of `k` bytes at address `a`. -/
def load_le (m : Mem) (a : Nat) : Nat → Nat
  | 0 => 0
  | k + 1 => m a % 256 + 256 * load_le m (a + 1) k

/-- Little-endian store of the low `k` bytes of `v` at address `a`. -/
def store_le (m : Mem) (a : Nat) : Nat → Nat → Mem
  | 0, _ => m
  | k + 1, v => store_le (fun x => if x = a then v % 256 else m x) (a + 1) k (v / 256)

/-- Load of a `uintptr_t` or `size_t`. -/
def load64 (m : Mem) (a : Nat) : Nat := load_le m a 8

/-- Store of a `uintptr_t` or `size_t`. -/
def store64 (m : Mem) (a v : Nat) : Mem := store_le m a 8 v

/-- Copy of `n` bytes from address `s` of `source` to address `d` of `target`; all bytes are
read before any is written. -/
def copy_bytes (source : Mem) (s : Nat) (target : Mem) (d n : Nat) : Mem :=
  fun x => if d ≤ x ∧ x < d + n then source (s + (x - d)) else target x

/-- Store of a 64-bit field at byte offset `off` of the object at address `p`.  A store that
would run past the end of the address space faults (`none`); this is what a store through
`MAP_FAILED` does.  Whether an address inside the address space is mapped is not tracked. -/
def store_field (m : Mem) (p off v : Nat) : Option Mem :=
  if p + off + 8 ≤ UINTPTR_MOD then some (store64 m (p + off) v) else none

/-- Page size of the host. -/
def PAGE_SIZE : Nat := 4096

/-- What `mmap(0, len, PROT_READ | PROT_WRITE, MAP_PRIVATE | MAP_ANONYMOUS, -1, 0)` hands
back: failure, or a fresh region that starts at a page boundary other than address 0. -/
inductive MmapResult
  | failed
  | mapped (page : Nat)

/-- The pointer value the caller of `mmap` receives. -/
def MmapResult.addr : MmapResult → Nat
  | MmapResult.failed => MAP_FAILED
  | MmapResult.mapped page => PAGE_SIZE * (page + 1)

/-- Anonymous `mmap`: a successful call hands out a zero-filled region at `result`; a failed
call (`result = MAP_FAILED`) leaves memory as it is. -/
def mmap_anonymous (m : Mem) (len result : Nat) : Mem :=
  if result = MAP_FAILED then m
  else fun x => if result ≤ x ∧ x < result + len then 0 else m x

/-! ## The device channel -/

/-- One entry of the offload runtime's table: the host range `[key, key + length)` stands for
the device allocation of `length` bytes at device address `dptr`. -/
structure Assoc where
  key : Nat
  length : Nat
  dptr : Nat
deriving DecidableEq

/-- Data clause of an offload pragma. -/
inductive Clause
  | copy_in
  | copy_out
  | nocopy
deriving DecidableEq

/-- One data clause as the source writes it:
`clause(var : length(length) into(into) align(align) alloc_if(alloc_if) free_if(free_if))`
for `target(mic:device)`. -/
structure Request where
  device : Int
  clause : Clause
  var : Nat
  length : Nat
  into : Option Nat
  align : Option Nat
  alloc_if : Bool
  free_if : Bool
deriving DecidableEq

/-- What a function does towards the operating system and the device channel.
`remote_memcpy device dest source n` is the offloaded block `memcpy(dest, source, n)`. -/
inductive Call
  | mmap (len result : Nat)
  | munmap (addr len : Nat)
  | offload (r : Request)
  | remote_memcpy (device : Int) (dest source n : Nat)
deriving DecidableEq

/-- Host memory, the memory of each device and each device's association table. -/
structure World where
  host : Mem
  dev : Int → Mem
  table : Int → List Assoc

/-- Replace the memory of one device. -/
def World.set_dev (w : World) (device : Int) (m : Mem) : World :=
  ⟨w.host, fun d => if d = device then m else w.dev d, w.table⟩

/-- Replace host memory. -/
def World.set_host (w : World) (m : Mem) : World :=
  ⟨m, w.dev, w.table⟩

/-- Replace the association table of one device. -/
def World.set_table (w : World) (device : Int) (t : List Assoc) : World :=
  ⟨w.host, w.dev, fun d => if d = device then t else w.table d⟩

/-- The host range `[k, k + n)` lies inside the range the entry tracks. -/
def Assoc.covers (e : Assoc) (k n : Nat) : Bool :=
  decide (e.key ≤ k) && decide (k + n ≤ e.key + e.length)

/-- Entry of the table that tracks the host range `[k, k + n)`. -/
def find_assoc (t : List Assoc) (k n : Nat) : Option Assoc :=
  t.find? (fun e => e.covers k n)

/-- Device address that stands for host address `k`, for a transfer of `n` bytes. -/
def device_address (t : List Assoc) (k n : Nat) : Option Nat :=
  (find_assoc t k n).map (fun e => e.dptr + (k - e.key))

/-- Modelled from the spec: the device channel's `device_alloc`.  The offload runtime is an
external collaborator; the allocation is entered in the table under the host address of the
clause, with the device address `device_ptr` the runtime chose. -/
def offload_alloc (w : World) (r : Request) (device_ptr : Nat) : World :=
  w.set_table r.device (⟨r.var, r.length, device_ptr⟩ :: w.table r.device)

/-- Modelled from the spec: the device channel's `device_transfer` and `device_free`, as an
`offload_transfer` pragma with one data clause.  `copy_in` moves host bytes at `var` to the
device allocation found through `into`; `copy_out` moves bytes of the device allocation found
through `var` to host address `into`; `nocopy` with `free_if(1)` drops the table entry.  A
host address the table does not track aborts the program (`none`).  Clauses of a shape the
source never writes (a copy that allocates or frees) are not given a meaning. -/
def offload_transfer (w : World) (r : Request) : Option World :=
  match r.clause with
  | Clause.copy_in =>
    if r.alloc_if || r.free_if then none
    else
      match device_address (w.table r.device) (r.into.getD r.var) r.length with
      | none => none
      | some d => some (w.set_dev r.device (copy_bytes w.host r.var (w.dev r.device) d r.length))
  | Clause.copy_out =>
    if r.alloc_if || r.free_if then none
    else
      match device_address (w.table r.device) r.var r.length with
      | none => none
      | some d =>
        some (w.set_host (copy_bytes (w.dev r.device) d w.host (r.into.getD r.var) r.length))
  | Clause.nocopy =>
    if r.alloc_if then none
    else if r.free_if then
      match find_assoc (w.table r.device) r.var r.length with
      | none => none
      | some e => some (w.set_table r.device ((w.table r.device).erase e))
    else some w

/-- Modelled from the spec: the device channel's `device_run`, for the one block the source
offloads, a `memcpy(dest, source, n)` executed in the memory of `device`. -/
def offload_memcpy (w : World) (device : Int) (dest source n : Nat) : World :=
  w.set_dev device (copy_bytes (w.dev device) source (w.dev device) dest n)

/-! ## The functions of `pymicimpl_buffers.cc` -/

/-- Outcome of `buffer_allocate`: the calls issued, the state when the function stopped, and
the handle it returned (`none` when a store faulted and the function did not return). -/
structure Allocated where
  debug : List Nat
  calls : List Call
  world : World
  handle : Option Nat

/-- Outcome of the functions that return `void`: the arguments of the `debug` line, the calls
issued, and the state afterwards (`none` when the device channel aborted). -/
structure Outcome where
  debug : List Nat
  calls : List Call
  world : Option World

/-- Source function `buffer_allocate(device, size, alignment)` (lines 45-70).  `mmap_result`
is what `mmap` returns and `device_addr` is the address the device reports for the new
allocation.  The result of `mmap` is used as it comes: the `nocopy(dummy : length(size)
align(alignment) alloc_if(1) free_if(0))` clause is issued for it, then `bd->pointer` and
`bd->size` are stored through it, and it is returned.  When one of the two stores faults the
function does not return. -/
def buffer_allocate (w : World) (device : Int) (size alignment : Nat)
    (mmap_result device_addr : Nat) : Allocated :=
  let len := max size sizeof_buffer_descriptor
  let dummy := mmap_result
  let w0 := w.set_host (mmap_anonymous w.host len dummy)
  let host_ptr := dummy
  let r : Request := ⟨device, Clause.nocopy, dummy, size, none, some alignment, true, false⟩
  let w1 := offload_alloc w0 r device_addr
  let device_ptr := device_addr
  match store_field w1.host dummy offsetof_pointer device_ptr with
  | none => ⟨[device_ptr, host_ptr], [Call.mmap len dummy, Call.offload r], w1, none⟩
  | some m2 =>
    match store_field m2 dummy offsetof_size size with
    | none =>
      ⟨[device_ptr, host_ptr], [Call.mmap len dummy, Call.offload r], w1.set_host m2, none⟩
    | some m3 =>
      ⟨[device_ptr, host_ptr], [Call.mmap len dummy, Call.offload r], w1.set_host m3,
        some dummy⟩

/-- Source function `buffer_release(device, dummy)` (lines 73-90): `size = bd->size`, the
clause `nocopy(dummy : length(size) alloc_if(0) free_if(1))`, then `munmap(dummy, size)`. -/
def buffer_release (w : World) (device : Int) (dummy : Nat) : Outcome :=
  let host_ptr := dummy
  let size := load64 w.host (ptr_add dummy offsetof_size)
  let r : Request := ⟨device, Clause.nocopy, dummy, size, none, none, false, true⟩
  match offload_transfer w r with
  | none => ⟨[], [Call.offload r], none⟩
  | some w1 => ⟨[host_ptr], [Call.offload r, Call.munmap dummy size], some w1⟩

/-- Source function
`buffer_copy_to_target(device, src, dst, size, offset_host, offset_device)` (lines 93-113):
`src_offs = src + offset_host`, `dst_offs = dst + offset_device`, and the clause
`in(src_offs : length(size) into(dst_offs) alloc_if(0) free_if(0))`.  `hptr` and `dptr` go to
the `debug` line only. -/
def buffer_copy_to_target (w : World) (device : Int) (src dst size : Nat)
    (offset_host offset_device : Nat) : Outcome :=
  let hptr := src
  let dptr := load64 w.host dst
  let src_offs := ptr_add src offset_host
  let dst_offs := ptr_add dst offset_device
  let r : Request :=
    ⟨device, Clause.copy_in, src_offs, size, some dst_offs, none, false, false⟩
  ⟨[size, hptr, dptr], [Call.offload r], offload_transfer w r⟩

/-- Source function
`buffer_copy_to_host(device, src, dst, size, offset_device, offset_host)` (lines 116-135):
`src_offs = src + offset_host`, `dst_offs = dst + offset_device`, and the clause
`out(src_offs : length(size) into(dst_offs) alloc_if(0) free_if(0))`.  `hptr` and `dptr` go to
the `debug` line only. -/
def buffer_copy_to_host (w : World) (device : Int) (src dst size : Nat)
    (offset_device offset_host : Nat) : Outcome :=
  let hptr := dst
  let dptr := load64 w.host src
  let src_offs := ptr_add src offset_host
  let dst_offs := ptr_add dst offset_device
  let r : Request :=
    ⟨device, Clause.copy_out, src_offs, size, some dst_offs, none, false, false⟩
  ⟨[size, dptr, hptr], [Call.offload r], offload_transfer w r⟩

/-- Source function
`buffer_copy_on_device(device, src, dst, size, offset_device_src, offset_device_dst)`
(lines 138-163): `src_ptr = bd_dst->pointer + offset_device_src`,
`dst_ptr = bd_src->pointer + offset_device_dst`, and on the device
`memcpy(src_ptr, dst_ptr, size)`, whose first argument is the destination. -/
def buffer_copy_on_device (w : World) (device : Int) (src dst size : Nat)
    (offset_device_src offset_device_dst : Nat) : Outcome :=
  let bd_src_pointer := load64 w.host (ptr_add src offsetof_pointer)
  let bd_dst_pointer := load64 w.host (ptr_add dst offsetof_pointer)
  let src_ptr := (bd_dst_pointer + offset_device_src) % UINTPTR_MOD
  let dst_ptr := (bd_src_pointer + offset_device_dst) % UINTPTR_MOD
  ⟨[size, bd_src_pointer, bd_dst_pointer], [Call.remote_memcpy device src_ptr dst_ptr size],
    some (offload_memcpy w device src_ptr dst_ptr size)⟩

/-- Source function `buffer_translate_pointer(device_ptr)` (lines 166-173): `bd->pointer`. -/
def buffer_translate_pointer (w : World) (device_ptr : Nat) : Nat :=
  load64 w.host (ptr_add device_ptr offsetof_pointer)

/-! ## Tables and live handles -/

/-- The host ranges tracked by two table entries do not meet. -/
def Assoc.apart (e1 e2 : Assoc) : Prop :=
  e1.key + e1.length ≤ e2.key ∨ e2.key + e2.length ≤ e1.key

/-- No two entries of a table track overlapping host ranges (every entry was entered for a
region that `mmap` handed out while the others were still reserved). -/
def TableOk (t : List Assoc) : Prop :=
  t.Pairwise Assoc.apart

/-- Handle `h` is live on `device` with allocated size `size` and device address `a`: the
device channel tracks it, its descriptor holds `a` and `size`, and both the proxy region and
the device allocation lie inside the address space. -/
structure Live (w : World) (device : Int) (h size a : Nat) : Prop where
  tracked : (⟨h, size, a⟩ : Assoc) ∈ w.table device
  pointer_field : load64 w.host (ptr_add h offsetof_pointer) = a
  size_field : load64 w.host (ptr_add h offsetof_size) = size
  host_range : h + max size sizeof_buffer_descriptor < UINTPTR_MOD
  dev_range : a + size < UINTPTR_MOD

/-! ## Concrete states used to evaluate the functions -/

/-- Nothing allocated; host memory is zero and device byte `x` holds `x % 251`. -/
def w_init : World := ⟨fun _ => 0, fun _ x => x % 251, fun _ => []⟩

/-- Handle `0x10000` on device 0: 1024 bytes at device address `0x4000`. -/
def w_one : World := (buffer_allocate w_init 0 1024 64 0x10000 0x4000).world

/-- Handles `0x10000` and `0x20000` on device 0, 1024 bytes each, at device addresses
`0x4000` and `0x5000`. -/
def w_two : World := (buffer_allocate w_one 0 1024 64 0x20000 0x5000).world

/-- Handles `0x10000` (1024 bytes at `0x4000`), `0x20000` (512 bytes at `0x5000`) and
`0x30000` (512 bytes at `0x5200`) on device 0. -/
def w_three : World :=
  (buffer_allocate (buffer_allocate w_one 0 512 64 0x20000 0x5000).world
    0 512 64 0x30000 0x5200).world

/-- Host bytes `[0x8000, 0x8400)` hold the pattern `0xAB`, everything else is zero, and
handle `0x10000` (1024 bytes at `0x4000`) is live on device 0. -/
def w_pattern : World :=
  (buffer_allocate
    ⟨fun x => if 0x8000 ≤ x ∧ x < 0x8400 then 0xAB else 0, fun _ x => x % 251, fun _ => []⟩
    0 1024 64 0x10000 0x4000).world

/-- Handle `0x10000` of 8 bytes on device 0, at device address `0x4000`. -/
def w_small : World := (buffer_allocate w_init 0 8 64 0x10000 0x4000).world

/-! ## Byte memories: loads, stores, copies -/

theorem store_le_outside (k : Nat) : ∀ (m : Mem) (a v x : Nat),
    (x < a ∨ a + k ≤ x) → store_le m a k v x = m x := by
  induction k with
  | zero => intro m a v x _; rfl
  | succ k ih =>
    intro m a v x hx
    simp only [store_le]
    rw [ih _ _ _ _ (by omega)]
    have : x ≠ a := by omega
    simp [this]

theorem load_le_congr (k : Nat) : ∀ (m1 m2 : Mem) (a : Nat),
    (∀ x, a ≤ x → x < a + k → m1 x = m2 x) → load_le m1 a k = load_le m2 a k := by
  induction k with
  | zero => intro m1 m2 a _; rfl
  | succ k ih =>
    intro m1 m2 a h
    simp only [load_le]
    rw [h a (Nat.le_refl a) (by omega), ih m1 m2 (a + 1) (fun x h1 h2 => h x (by omega) (by omega))]

theorem load_le_store_le (k : Nat) : ∀ (m : Mem) (a v : Nat),
    load_le (store_le m a k v) a k = v % 256 ^ k := by
  induction k with
  | zero => intro m a v; simp [load_le, Nat.mod_one]
  | succ k ih =>
    intro m a v
    simp only [load_le, store_le]
    rw [ih, store_le_outside k _ _ _ _ (Or.inl (Nat.lt_succ_self a))]
    simp only [if_true, Nat.mod_mod]
    rw [pow_succ', Nat.mod_mul]

theorem load_le_lt (k : Nat) : ∀ (m : Mem) (a : Nat), load_le m a k < 256 ^ k := by
  induction k with
  | zero => intro m a; simp [load_le]
  | succ k ih =>
    intro m a
    simp only [load_le]
    have h1 := ih m (a + 1)
    have h2 : m a % 256 < 256 := Nat.mod_lt _ (by decide)
    rw [pow_succ]
    nlinarith

theorem load64_store64 (m : Mem) (a v : Nat) (hv : v < UINTPTR_MOD) :
    load64 (store64 m a v) a = v := by
  unfold load64 store64
  rw [load_le_store_le]
  exact Nat.mod_eq_of_lt hv

theorem load64_congr (m1 m2 : Mem) (a : Nat) (h : ∀ x, a ≤ x → x < a + 8 → m1 x = m2 x) :
    load64 m1 a = load64 m2 a :=
  load_le_congr 8 m1 m2 a h

theorem store64_outside (m : Mem) (a v x : Nat) (hx : x < a ∨ a + 8 ≤ x) :
    store64 m a v x = m x :=
  store_le_outside 8 m a v x hx

theorem load64_lt (m : Mem) (a : Nat) : load64 m a < UINTPTR_MOD :=
  load_le_lt 8 m a

theorem copy_bytes_inside (source : Mem) (s : Nat) (target : Mem) (d n i : Nat) (hi : i < n) :
    copy_bytes source s target d n (d + i) = source (s + i) := by
  unfold copy_bytes
  have h : d ≤ d + i ∧ d + i < d + n := ⟨by omega, by omega⟩
  rw [if_pos h, Nat.add_sub_cancel_left]

theorem copy_bytes_outside (source : Mem) (s : Nat) (target : Mem) (d n x : Nat)
    (hx : x < d ∨ d + n ≤ x) : copy_bytes source s target d n x = target x := by
  unfold copy_bytes
  have h : ¬ (d ≤ x ∧ x < d + n) := by omega
  rw [if_neg h]

theorem ptr_add_eq (p off : Nat) (h : p + off < UINTPTR_MOD) : ptr_add p off = p + off :=
  Nat.mod_eq_of_lt h

/-! ## Allocation, release and the descriptor -/

theorem buffer_allocate_calls (w : World) (device : Int) (size alignment p a : Nat) :
    (buffer_allocate w device size alignment p a).calls =
      [Call.mmap (max size sizeof_buffer_descriptor) p,
        Call.offload ⟨device, Clause.nocopy, p, size, none, some alignment, true, false⟩] := by
  unfold buffer_allocate
  simp only []
  split
  · rfl
  · split <;> rfl

theorem buffer_allocate_table (w : World) (device : Int) (size alignment p a : Nat) :
    (buffer_allocate w device size alignment p a).world.table device =
      ⟨p, size, a⟩ :: w.table device := by
  unfold buffer_allocate
  simp only []
  split
  · simp [offload_alloc, World.set_table, World.set_host]
  · split <;> simp [offload_alloc, World.set_table, World.set_host]

theorem buffer_allocate_returns_handle (w : World) (device : Int) (size alignment p a : Nat)
    (hp : p + sizeof_buffer_descriptor ≤ UINTPTR_MOD) :
    (buffer_allocate w device size alignment p a).handle = some p ∧
    (buffer_allocate w device size alignment p a).world.host =
      store64 (store64 (mmap_anonymous w.host (max size sizeof_buffer_descriptor) p) p a)
        (p + 8) size := by
  have h16 : sizeof_buffer_descriptor = 16 := rfl
  have h1 : p + 0 + 8 ≤ UINTPTR_MOD := by omega
  have h2 : p + 8 + 8 ≤ UINTPTR_MOD := by omega
  simp [buffer_allocate, store_field, offsetof_pointer, offsetof_size, h1, h2,
    offload_alloc, World.set_table, World.set_host]

theorem buffer_allocate_faults (w : World) (device : Int) (size alignment p a : Nat)
    (hp : ¬ p + sizeof_buffer_descriptor ≤ UINTPTR_MOD) :
    (buffer_allocate w device size alignment p a).handle = none := by
  have h16 : sizeof_buffer_descriptor = 16 := rfl
  unfold buffer_allocate
  simp only []
  split
  · rfl
  · split
    · rfl
    · rename_i m2 h1 m3 h2
      simp only [store_field, offsetof_size] at h2
      split at h2
      · omega
      · cases h2

theorem buffer_allocate_descriptor (w : World) (device : Int) (size alignment p a : Nat)
    (hp : p + sizeof_buffer_descriptor ≤ UINTPTR_MOD) :
    load64 (buffer_allocate w device size alignment p a).world.host (ptr_add p offsetof_pointer)
      = a % UINTPTR_MOD ∧
    load64 (buffer_allocate w device size alignment p a).world.host (ptr_add p offsetof_size)
      = size % UINTPTR_MOD := by
  have h16 : sizeof_buffer_descriptor = 16 := rfl
  have h0 : ptr_add p offsetof_pointer = p := ptr_add_eq p 0 (by omega)
  have h8 : ptr_add p offsetof_size = p + 8 := ptr_add_eq p 8 (by omega)
  rw [(buffer_allocate_returns_handle w device size alignment p a hp).2, h0, h8]
  constructor
  · rw [load64_congr _ _ p (fun x h1 h2 => store64_outside _ (p + 8) size x (Or.inl h2))]
    exact load_le_store_le 8 _ p a
  · exact load_le_store_le 8 _ (p + 8) size

theorem buffer_allocate_success (w : World) (device : Int) (size alignment p a : Nat)
    (hp : p + sizeof_buffer_descriptor ≤ UINTPTR_MOD) (ha : a < UINTPTR_MOD)
    (hsize : size < UINTPTR_MOD) :
    (⟨p, size, a⟩ : Assoc) ∈ (buffer_allocate w device size alignment p a).world.table device ∧
    buffer_translate_pointer (buffer_allocate w device size alignment p a).world p = a ∧
    load64 (buffer_allocate w device size alignment p a).world.host (p + offsetof_size)
      = size := by
  have h16 : sizeof_buffer_descriptor = 16 := rfl
  have hd := buffer_allocate_descriptor w device size alignment p a hp
  rw [Nat.mod_eq_of_lt ha, Nat.mod_eq_of_lt hsize] at hd
  have h8 : ptr_add p offsetof_size = p + offsetof_size := ptr_add_eq p 8 (by omega)
  rw [h8] at hd
  refine ⟨?_, ?_, hd.2⟩
  · rw [buffer_allocate_table]
    exact List.mem_cons_self _ _
  · unfold buffer_translate_pointer
    exact hd.1

theorem buffer_allocate_failed (w : World) (device : Int) (size alignment a : Nat) :
    (buffer_allocate w device size alignment MAP_FAILED a).handle = none ∧
    (buffer_allocate w device size alignment MAP_FAILED a).world.host = w.host := by
  have h1 : ¬ MAP_FAILED + 0 + 8 ≤ UINTPTR_MOD := by decide
  simp [buffer_allocate, store_field, offsetof_pointer, h1, offload_alloc,
    World.set_table, World.set_host, mmap_anonymous]

theorem mapped_addr_pos (page : Nat) : (MmapResult.mapped page).addr ≠ 0 := by
  simp [MmapResult.addr, PAGE_SIZE]

/-! ## The association table -/

theorem find_assoc_covers (t : List Assoc) (k n : Nat) (e : Assoc)
    (h : find_assoc t k n = some e) : e ∈ t ∧ e.covers k n = true := by
  unfold find_assoc at h
  have hc := List.find?_some h
  exact ⟨List.mem_of_find?_eq_some h, hc⟩

theorem covers_unique (e1 e2 : Assoc) (k n : Nat) (hn : 0 < n) (h1 : e1.covers k n = true)
    (h2 : e2.covers k n = true) (hap : e1.apart e2) : False := by
  simp only [Assoc.covers, Bool.and_eq_true, decide_eq_true_eq] at h1 h2
  unfold Assoc.apart at hap
  omega

theorem find_assoc_of_mem (t : List Assoc) (hok : TableOk t) (e : Assoc) (he : e ∈ t)
    (k n : Nat) (hc : e.covers k n = true) :
    ∃ e1, find_assoc t k n = some e1 ∧ (0 < n → e1 = e) := by
  induction t with
  | nil => simp at he
  | cons x xs ih =>
    unfold TableOk at hok
    rw [List.pairwise_cons] at hok
    by_cases hx : x.covers k n = true
    · refine ⟨x, ?_, ?_⟩
      · simp [find_assoc, List.find?_cons, hx]
      · intro hn
        rcases List.mem_cons.mp he with h | h
        · exact h.symm
        · exact (covers_unique x e k n hn hx hc (hok.1 e h)).elim
    · have hx1 : x.covers k n = false := by simpa using hx
      rcases List.mem_cons.mp he with h | h
      · rw [h] at hc; rw [hc] at hx1; cases hx1
      · obtain ⟨e1, h1, h2⟩ := ih hok.2 h
        refine ⟨e1, ?_, h2⟩
        unfold find_assoc at h1 ⊢
        rw [List.find?_cons, hx1]
        exact h1

theorem device_address_of_live (w : World) (device : Int) (h size a off n : Nat)
    (hok : TableOk (w.table device)) (hl : Live w device h size a) (hb : off + n ≤ size) :
    ∃ d, device_address (w.table device) (ptr_add h off) n = some d ∧ (0 < n → d = a + off) := by
  have hsp := hl.host_range
  have hmax : size ≤ max size sizeof_buffer_descriptor := Nat.le_max_left _ _
  have hp : ptr_add h off = h + off := ptr_add_eq h off (by omega)
  rw [hp]
  have hc : (⟨h, size, a⟩ : Assoc).covers (h + off) n = true := by
    simp only [Assoc.covers, Bool.and_eq_true, decide_eq_true_eq]
    omega
  obtain ⟨e1, h1, h2⟩ := find_assoc_of_mem _ hok _ hl.tracked (h + off) n hc
  refine ⟨e1.dptr + (h + off - e1.key), ?_, ?_⟩
  · simp [device_address, h1]
  · intro hn
    rw [h2 hn]
    simp

/-! ## What the calls leave alone -/

theorem offload_memcpy_host (w : World) (device : Int) (dest source n : Nat) :
    (offload_memcpy w device dest source n).host = w.host ∧
    (offload_memcpy w device dest source n).table = w.table :=
  ⟨rfl, rfl⟩

theorem copy_in_frame (w w1 : World) (r : Request) (hc : r.clause = Clause.copy_in)
    (h : offload_transfer w r = some w1) : w1.host = w.host ∧ w1.table = w.table := by
  unfold offload_transfer at h
  rw [hc] at h
  simp only at h
  split at h
  · cases h
  · split at h
    · cases h
    · cases h; exact ⟨rfl, rfl⟩

theorem copy_out_frame (w w1 : World) (r : Request) (hc : r.clause = Clause.copy_out)
    (h : offload_transfer w r = some w1) :
    w1.table = w.table ∧ w1.dev = w.dev ∧
    ∀ x, (x < r.into.getD r.var ∨ r.into.getD r.var + r.length ≤ x) → w1.host x = w.host x := by
  unfold offload_transfer at h
  rw [hc] at h
  simp only at h
  split at h
  · cases h
  · split at h
    · cases h
    · cases h
      refine ⟨rfl, rfl, ?_⟩
      intro x hx
      exact copy_bytes_outside _ _ _ _ _ x hx

/-! ## Host to device -/

theorem set_dev_same (w : World) (device : Int) (m : Mem) :
    (w.set_dev device m).dev device = m := by
  simp [World.set_dev]

theorem set_dev_other (w : World) (device d : Int) (m : Mem) (h : d ≠ device) :
    (w.set_dev device m).dev d = w.dev d := by
  simp [World.set_dev, h]

theorem buffer_copy_to_target_effect (w : World) (device : Int)
    (X H S a n offset_host offset_device : Nat)
    (hok : TableOk (w.table device)) (hl : Live w device H S a)
    (hX : X + offset_host < UINTPTR_MOD) (hb : offset_device + n ≤ S) :
    (buffer_copy_to_target w device X H n offset_host offset_device).calls =
      [Call.offload ⟨device, Clause.copy_in, X + offset_host, n, some (H + offset_device),
        none, false, false⟩] ∧
    ∃ w1, (buffer_copy_to_target w device X H n offset_host offset_device).world = some w1 ∧
      w1.host = w.host ∧ w1.table = w.table ∧
      (∀ i, i < n → w1.dev device (a + offset_device + i) = w.host (X + offset_host + i)) ∧
      (∀ x, (x < a + offset_device ∨ a + offset_device + n ≤ x) →
        w1.dev device x = w.dev device x) ∧
      (∀ d, d ≠ device → w1.dev d = w.dev d) := by
  have hsp := hl.host_range
  have hmax : S ≤ max S sizeof_buffer_descriptor := Nat.le_max_left _ _
  have hp : ptr_add H offset_device = H + offset_device := ptr_add_eq _ _ (by omega)
  have hx : ptr_add X offset_host = X + offset_host := ptr_add_eq _ _ hX
  obtain ⟨d, hd, hd2⟩ := device_address_of_live w device H S a offset_device n hok hl hb
  refine ⟨?_, ?_⟩
  · simp only [buffer_copy_to_target, hp, hx]
  · refine ⟨w.set_dev device (copy_bytes w.host (X + offset_host) (w.dev device) d n), ?_,
      rfl, rfl, ?_, ?_, ?_⟩
    · simp only [buffer_copy_to_target, offload_transfer, Option.getD_some, hx, hd,
        Bool.or_self, Bool.false_eq_true, if_false]
    · intro i hi
      rw [set_dev_same, ← hd2 (by omega)]
      exact copy_bytes_inside _ _ _ _ _ i hi
    · intro x hxo
      rw [set_dev_same]
      rcases Nat.eq_zero_or_pos n with h0 | hpos
      · subst h0
        exact copy_bytes_outside _ _ _ _ _ x (by omega)
      · rw [hd2 hpos]
        exact copy_bytes_outside _ _ _ _ _ x hxo
    · intro d1 hd1
      exact set_dev_other w device d1 _ hd1

/-- C4: `buffer_copy_to_target(device, X, H, n, offset_host, offset_device)` on a live handle
`H` of size `S` with `offset_device + n ≤ S` issues one `in` clause of `n` bytes from host
address `X + offset_host` into the proxy address `H + offset_device`, with `alloc_if(0)` and
`free_if(0)`; the call returns, the table and host memory are as before, device bytes
`[offset_device, offset_device + n)` of `H` equal host bytes `[offset_host, offset_host + n)`
of `X`, and no other device byte changes. -/
theorem buffer_copy_to_target_post (w : World) (device : Int)
    (X H S a n offset_host offset_device : Nat)
    (hok : TableOk (w.table device)) (hl : Live w device H S a)
    (hX : X + offset_host < UINTPTR_MOD) (hb : offset_device + n ≤ S) :
    (buffer_copy_to_target w device X H n offset_host offset_device).calls =
      [Call.offload ⟨device, Clause.copy_in, X + offset_host, n, some (H + offset_device),
        none, false, false⟩] ∧
    ∃ w1, (buffer_copy_to_target w device X H n offset_host offset_device).world = some w1 ∧
      w1.host = w.host ∧ w1.table = w.table ∧
      (∀ i, i < n → w1.dev device (a + offset_device + i) = w.host (X + offset_host + i)) ∧
      (∀ x, (x < a + offset_device ∨ a + offset_device + n ≤ x) →
        w1.dev device x = w.dev device x) ∧
      (∀ d, d ≠ device → w1.dev d = w.dev d) :=
  buffer_copy_to_target_effect w device X H S a n offset_host offset_device hok hl hX hb

theorem w_one_table : TableOk (w_one.table 0) := by
  rw [w_one, buffer_allocate_table]
  simp [TableOk, w_init]

theorem w_one_live : Live w_one 0 0x10000 1024 0x4000 :=
  ⟨by decide, by decide, by decide, by decide, by decide⟩

theorem buffer_copy_to_target_post_witness :
    TableOk (w_one.table 0) ∧ Live w_one 0 0x10000 1024 0x4000 ∧
    0x8000 + 0 < UINTPTR_MOD ∧ 512 + 256 ≤ 1024 ∧
    ((buffer_copy_to_target w_one 0 0x8000 0x10000 256 0 512).calls =
      [Call.offload ⟨0, Clause.copy_in, 0x8000 + 0, 256, some (0x10000 + 512),
        none, false, false⟩] ∧
    ∃ w1, (buffer_copy_to_target w_one 0 0x8000 0x10000 256 0 512).world = some w1 ∧
      w1.host = w_one.host ∧ w1.table = w_one.table ∧
      (∀ i, i < 256 → w1.dev 0 (0x4000 + 512 + i) = w_one.host (0x8000 + 0 + i)) ∧
      (∀ x, (x < 0x4000 + 512 ∨ 0x4000 + 512 + 256 ≤ x) → w1.dev 0 x = w_one.dev 0 x) ∧
      (∀ d, d ≠ 0 → w1.dev d = w_one.dev d)) :=
  ⟨w_one_table, w_one_live, by decide, by decide,
    buffer_copy_to_target_post w_one 0 0x8000 0x10000 1024 0x4000 256 0 512
      w_one_table w_one_live (by decide) (by decide)⟩

/-! ## The descriptor under transfers -/

/-- C5 (the code at a failing input): handle `H = 0x10000` of 1024 bytes is live on device 0
with device address `0x4000`, and the raw host buffer `Y = [0xFF00, 0x10000)` of 256 bytes is
disjoint from the proxy region of `H`.  The call
`buffer_copy_to_host(0, H, Y, 16, offset_device = 256, offset_host = 0)` is in bounds on both
sides (`0 + 16 ≤ 256`, `256 + 16 ≤ 1024`), and it stores 16 device bytes at
`Y + offset_device = 0x10000`, onto the descriptor of `H`: `buffer_translate_pointer(H)` is
`0x4000` before the call and another value after it. -/
theorem copy_to_host_overwrites_descriptor :
    Live w_one 0 0x10000 1024 0x4000 ∧
    0xFF00 + 256 ≤ 0x10000 ∧ 0 + 16 ≤ 256 ∧ 256 + 16 ≤ 1024 ∧
    buffer_translate_pointer w_one 0x10000 = 0x4000 ∧
    (buffer_copy_to_host w_one 0 0x10000 0xFF00 16 256 0).calls =
      [Call.offload ⟨0, Clause.copy_out, 0x10000 + 0, 16, some (0xFF00 + 256),
        none, false, false⟩] ∧
    ∃ w1, (buffer_copy_to_host w_one 0 0x10000 0xFF00 16 256 0).world = some w1 ∧
      (∀ i, i < 16 → w1.host (0x10000 + i) = w_one.dev 0 (0x4000 + 0 + i)) ∧
      buffer_translate_pointer w1 0x10000 = 5497569448741520965 ∧
      buffer_translate_pointer w1 0x10000 ≠ 0x4000 :=
  ⟨w_one_live, by decide, by decide, by decide, by decide, by decide,
    _, rfl, by decide, by decide, by decide⟩

/-- C6 (the code at a failing input): handle `H = 0x10000` was allocated with `size = 1024`
on device 0, and the raw host buffer `Y = [0xFE08, 0xFE10)` of 8 bytes is disjoint from the
proxy region of `H`.  The only call in between,
`buffer_copy_to_host(0, H, Y, 8, offset_device = 512, offset_host = 0)`, is in bounds on both
sides (`0 + 8 ≤ 8`, `512 + 8 ≤ 1024`), and it stores 8 device bytes at
`Y + offset_device = 0x10008`, onto `bd->size`.  The allocation asked the device for 1024
bytes; `buffer_release(0, H)` then asks the device channel to free a length that is not
1024. -/
theorem release_after_copy_to_host :
    0xFE08 + 8 ≤ 0x10000 ∧ 0 + 8 ≤ 8 ∧ 512 + 8 ≤ 1024 ∧
    (buffer_allocate w_init 0 1024 64 0x10000 0x4000).calls.getLast? =
      some (Call.offload ⟨0, Clause.nocopy, 0x10000, 1024, none, some 64, true, false⟩) ∧
    (buffer_release w_one 0 0x10000).calls.head? =
      some (Call.offload ⟨0, Clause.nocopy, 0x10000, 1024, none, none, false, true⟩) ∧
    (buffer_copy_to_host w_one 0 0x10000 0xFE08 8 512 0).calls =
      [Call.offload ⟨0, Clause.copy_out, 0x10000 + 0, 8, some (0xFE08 + 512),
        none, false, false⟩] ∧
    ∃ w1, (buffer_copy_to_host w_one 0 0x10000 0xFE08 8 512 0).world = some w1 ∧
      (buffer_release w1 0 0x10000).calls.head? =
        some (Call.offload
          ⟨0, Clause.nocopy, 0x10000, 5497569448741520965, none, none, false, true⟩) ∧
      (5497569448741520965 : Nat) ≠ 1024 :=
  ⟨by decide, by decide, by decide, by decide, by decide, by decide,
    _, rfl, by decide, by decide⟩

/-- C9 (the code at a failing input): for `size = 8` `buffer_allocate` reserves
`max(8, sizeof(buffer_descriptor)) = 16` bytes with `mmap`, and the matching `buffer_release`
passes the length 8 read from the descriptor to `munmap`. -/
theorem release_munmap_length_small :
    (buffer_allocate w_init 0 8 64 0x10000 0x4000).calls.head? = some (Call.mmap 16 0x10000) ∧
    (buffer_release w_small 0 0x10000).calls =
      [Call.offload ⟨0, Clause.nocopy, 0x10000, 8, none, none, false, true⟩,
        Call.munmap 0x10000 8] := by
  decide

/-- C8 (the claim fails): when `mmap` fails, `buffer_allocate` still issues the device
allocation, keyed by the failed address `MAP_FAILED`, and the device channel enters it in its
table. -/
theorem buffer_allocate_mmap_failure :
    (buffer_allocate w_init 0 4096 64 MAP_FAILED 0x4000).calls =
      [Call.mmap 4096 MAP_FAILED,
        Call.offload ⟨0, Clause.nocopy, MAP_FAILED, 4096, none, some 64, true, false⟩] ∧
    (buffer_allocate w_init 0 4096 64 MAP_FAILED 0x4000).world.table 0 =
      [⟨MAP_FAILED, 4096, 0x4000⟩] := by
  decide

/-- C8 (amended): for every result `r` of `mmap` and every device address `a` and `size` that
fit a machine word:
whenever `buffer_allocate` returns a handle, the handle is non-null, it is the address of the
region `mmap` reserved, the device channel tracks it, and its descriptor holds the device
address and the size;
if `mmap` fails, `buffer_allocate` returns no handle and writes no descriptor (host memory is
as before), but it has issued the device allocation keyed by `MAP_FAILED`;
if `mmap` reserves a region that lies in the address space, `buffer_allocate` returns. -/
theorem buffer_allocate_returns (w : World) (device : Int) (size alignment : Nat)
    (r : MmapResult) (a : Nat) (ha : a < UINTPTR_MOD) (hsize : size < UINTPTR_MOD) :
    (∀ h, (buffer_allocate w device size alignment r.addr a).handle = some h →
      h ≠ 0 ∧ (∃ page, r = MmapResult.mapped page ∧ h = PAGE_SIZE * (page + 1)) ∧
      (⟨h, size, a⟩ : Assoc) ∈
        (buffer_allocate w device size alignment r.addr a).world.table device ∧
      buffer_translate_pointer (buffer_allocate w device size alignment r.addr a).world h = a ∧
      load64 (buffer_allocate w device size alignment r.addr a).world.host (h + offsetof_size)
        = size) ∧
    (r = MmapResult.failed →
      (buffer_allocate w device size alignment r.addr a).handle = none ∧
      (buffer_allocate w device size alignment r.addr a).world.host = w.host ∧
      (buffer_allocate w device size alignment r.addr a).calls =
        [Call.mmap (max size sizeof_buffer_descriptor) MAP_FAILED,
          Call.offload
            ⟨device, Clause.nocopy, MAP_FAILED, size, none, some alignment, true, false⟩]) ∧
    (∀ page, r = MmapResult.mapped page →
      PAGE_SIZE * (page + 1) + max size sizeof_buffer_descriptor ≤ UINTPTR_MOD →
      (buffer_allocate w device size alignment r.addr a).handle
        = some (PAGE_SIZE * (page + 1))) := by
  have h16 : sizeof_buffer_descriptor = 16 := rfl
  have hmax : sizeof_buffer_descriptor ≤ max size sizeof_buffer_descriptor :=
    Nat.le_max_right _ _
  cases r with
  | failed =>
    have hf := buffer_allocate_failed w device size alignment a
    refine ⟨?_, ?_, ?_⟩
    · intro h hh
      rw [show MmapResult.failed.addr = MAP_FAILED from rfl, hf.1] at hh
      cases hh
    · intro _
      exact ⟨hf.1, hf.2, buffer_allocate_calls w device size alignment MAP_FAILED a⟩
    · intro page hr
      cases hr
  | mapped page =>
    refine ⟨?_, ?_, ?_⟩
    · intro h hh
      by_cases hp : (MmapResult.mapped page).addr + sizeof_buffer_descriptor ≤ UINTPTR_MOD
      · have hret := (buffer_allocate_returns_handle w device size alignment _ a hp).1
        rw [hret] at hh
        have he : (MmapResult.mapped page).addr = h := Option.some.inj hh
        have hs := buffer_allocate_success w device size alignment _ a hp ha hsize
        subst he
        exact ⟨mapped_addr_pos page, ⟨page, rfl, rfl⟩, hs⟩
      · rw [buffer_allocate_faults w device size alignment _ a hp] at hh
        cases hh
    · intro hr
      cases hr
    · intro page1 hr hfit
      cases hr
      exact (buffer_allocate_returns_handle w device size alignment _ a
        (Nat.le_trans (Nat.add_le_add_left hmax _) hfit)).1

theorem buffer_allocate_returns_witness :
    ((0x4000 : Nat) < UINTPTR_MOD ∧ (4096 : Nat) < UINTPTR_MOD) ∧
    (buffer_allocate w_init 0 4096 64 (MmapResult.mapped 15).addr 0x4000).handle
      = some (PAGE_SIZE * (15 + 1)) ∧
    (0x10000 ≠ 0 ∧
      (∃ page, MmapResult.mapped 15 = MmapResult.mapped page ∧
        0x10000 = PAGE_SIZE * (page + 1)) ∧
      (⟨0x10000, 4096, 0x4000⟩ : Assoc) ∈
        (buffer_allocate w_init 0 4096 64 (MmapResult.mapped 15).addr 0x4000).world.table 0 ∧
      buffer_translate_pointer
        (buffer_allocate w_init 0 4096 64 (MmapResult.mapped 15).addr 0x4000).world 0x10000
        = 0x4000 ∧
      load64 (buffer_allocate w_init 0 4096 64 (MmapResult.mapped 15).addr 0x4000).world.host
        (0x10000 + offsetof_size) = 4096) ∧
    ((buffer_allocate w_init 0 4096 64 MmapResult.failed.addr 0x4000).handle = none ∧
      (buffer_allocate w_init 0 4096 64 MmapResult.failed.addr 0x4000).world.host
        = w_init.host ∧
      (buffer_allocate w_init 0 4096 64 MmapResult.failed.addr 0x4000).calls =
        [Call.mmap (max 4096 sizeof_buffer_descriptor) MAP_FAILED,
          Call.offload ⟨0, Clause.nocopy, MAP_FAILED, 4096, none, some 64, true, false⟩]) :=
  ⟨⟨by decide, by decide⟩,
    (buffer_allocate_returns w_init 0 4096 64 (MmapResult.mapped 15) 0x4000
      (by decide) (by decide)).2.2 15 rfl (by decide),
    (buffer_allocate_returns w_init 0 4096 64 (MmapResult.mapped 15) 0x4000
      (by decide) (by decide)).1 0x10000 (by decide),
    (buffer_allocate_returns w_init 0 4096 64 MmapResult.failed 0x4000
      (by decide) (by decide)).2.1 rfl⟩

/-! ## Device to host, device to device -/

theorem buffer_copy_to_host_effect (w : World) (device : Int)
    (H S a D n offset_device offset_host : Nat)
    (hok : TableOk (w.table device)) (hl : Live w device H S a)
    (hD : D + offset_device < UINTPTR_MOD) (hb : offset_host + n ≤ S) :
    (buffer_copy_to_host w device H D n offset_device offset_host).calls =
      [Call.offload ⟨device, Clause.copy_out, H + offset_host, n, some (D + offset_device),
        none, false, false⟩] ∧
    ∃ w1, (buffer_copy_to_host w device H D n offset_device offset_host).world = some w1 ∧
      w1.dev = w.dev ∧ w1.table = w.table ∧
      (∀ i, i < n → w1.host (D + offset_device + i) = w.dev device (a + offset_host + i)) ∧
      (∀ x, (x < D + offset_device ∨ D + offset_device + n ≤ x) → w1.host x = w.host x) := by
  have hsp := hl.host_range
  have hmax : S ≤ max S sizeof_buffer_descriptor := Nat.le_max_left _ _
  have hp : ptr_add H offset_host = H + offset_host := ptr_add_eq _ _ (by omega)
  have hx : ptr_add D offset_device = D + offset_device := ptr_add_eq _ _ hD
  obtain ⟨d, hd, hd2⟩ := device_address_of_live w device H S a offset_host n hok hl hb
  refine ⟨?_, ?_⟩
  · simp only [buffer_copy_to_host, hp, hx]
  · refine ⟨w.set_host (copy_bytes (w.dev device) d w.host (D + offset_device) n), ?_,
      rfl, rfl, ?_, ?_⟩
    · simp only [buffer_copy_to_host, offload_transfer, Option.getD_some, hx, hd,
        Bool.or_self, Bool.false_eq_true, if_false]
    · intro i hi
      show copy_bytes (w.dev device) d w.host (D + offset_device) n (D + offset_device + i) = _
      rw [copy_bytes_inside _ _ _ _ _ i hi, hd2 (by omega)]
    · intro x hxo
      exact copy_bytes_outside _ _ _ _ _ x hxo

theorem buffer_copy_on_device_effect (w : World) (device : Int)
    (A SA a B SB b n offset_device_src offset_device_dst : Nat)
    (hA : Live w device A SA a) (hB : Live w device B SB b)
    (h1 : b + offset_device_src < UINTPTR_MOD) (h2 : a + offset_device_dst < UINTPTR_MOD) :
    (buffer_copy_on_device w device A B n offset_device_src offset_device_dst).calls =
      [Call.remote_memcpy device (b + offset_device_src) (a + offset_device_dst) n] ∧
    ∃ w1, (buffer_copy_on_device w device A B n offset_device_src offset_device_dst).world
        = some w1 ∧
      w1.host = w.host ∧ w1.table = w.table ∧
      (∀ i, i < n → w1.dev device (b + offset_device_src + i)
        = w.dev device (a + offset_device_dst + i)) ∧
      (∀ x, (x < b + offset_device_src ∨ b + offset_device_src + n ≤ x) →
        w1.dev device x = w.dev device x) := by
  have ea := hA.pointer_field
  have eb := hB.pointer_field
  have m1 : (b + offset_device_src) % UINTPTR_MOD = b + offset_device_src := Nat.mod_eq_of_lt h1
  have m2 : (a + offset_device_dst) % UINTPTR_MOD = a + offset_device_dst := Nat.mod_eq_of_lt h2
  refine ⟨?_, ?_⟩
  · simp only [buffer_copy_on_device, ea, eb, m1, m2]
  · refine ⟨offload_memcpy w device (b + offset_device_src) (a + offset_device_dst) n, ?_,
      rfl, rfl, ?_, ?_⟩
    · simp only [buffer_copy_on_device, ea, eb, m1, m2]
    · intro i hi
      unfold offload_memcpy
      rw [set_dev_same]
      exact copy_bytes_inside _ _ _ _ _ i hi
    · intro x hxo
      unfold offload_memcpy
      rw [set_dev_same]
      exact copy_bytes_outside _ _ _ _ _ x hxo

theorem round_trip_equal_offsets (w : World) (device : Int) (X Y H S a n off : Nat)
    (hok : TableOk (w.table device)) (hl : Live w device H S a)
    (hX : X + off < UINTPTR_MOD) (hY : Y + off < UINTPTR_MOD) (hb : off + n ≤ S) :
    ∃ w1 w2, (buffer_copy_to_target w device X H n off off).world = some w1 ∧
      (buffer_copy_to_host w1 device H Y n off off).world = some w2 ∧
      ∀ i, i < n → w2.host (Y + off + i) = w.host (X + off + i) := by
  obtain ⟨-, w1, hw1, hh1, ht1, hin1, -, -⟩ :=
    buffer_copy_to_target_effect w device X H S a n off off hok hl hX hb
  have hl1 : Live w1 device H S a :=
    ⟨by rw [ht1]; exact hl.tracked, by rw [hh1]; exact hl.pointer_field,
      by rw [hh1]; exact hl.size_field, hl.host_range, hl.dev_range⟩
  have hk1 : TableOk (w1.table device) := by rw [ht1]; exact hok
  obtain ⟨-, w2, hw2, -, -, hin2, -⟩ :=
    buffer_copy_to_host_effect w1 device H S a Y n off off hk1 hl1 hY hb
  exact ⟨w1, w2, hw1, hw2, fun i hi => (hin2 i hi).trans (hin1 i hi)⟩

/-! ## The functions at concrete inputs -/

theorem live_of_eq (w w1 : World) (device : Int) (h size a : Nat) (hh : w1.host = w.host)
    (ht : w1.table = w.table) (hl : Live w device h size a) : Live w1 device h size a :=
  ⟨by rw [ht]; exact hl.tracked, by rw [hh]; exact hl.pointer_field,
    by rw [hh]; exact hl.size_field, hl.host_range, hl.dev_range⟩

theorem w_two_live_src : Live w_two 0 0x10000 1024 0x4000 :=
  ⟨by decide, by decide, by decide, by decide, by decide⟩

theorem w_two_live_dst : Live w_two 0 0x20000 1024 0x5000 :=
  ⟨by decide, by decide, by decide, by decide, by decide⟩

theorem w_three_live_src : Live w_three 0 0x10000 1024 0x4000 :=
  ⟨by decide, by decide, by decide, by decide, by decide⟩

theorem w_three_live_dst : Live w_three 0 0x20000 512 0x5000 :=
  ⟨by decide, by decide, by decide, by decide, by decide⟩

theorem w_three_live_other : Live w_three 0 0x30000 512 0x5200 :=
  ⟨by decide, by decide, by decide, by decide, by decide⟩

theorem w_pattern_table : TableOk (w_pattern.table 0) := by
  rw [w_pattern, buffer_allocate_table]
  simp [TableOk]

theorem w_pattern_live : Live w_pattern 0 0x10000 1024 0x4000 :=
  ⟨by decide, by decide, by decide, by decide, by decide⟩

/-- C1 (the code at the claim's own witness): two live 1024-byte handles `A = 0x10000` and
`B = 0x20000` on device 0, `N = 512`, `oa = 0`, `ob = 512`.  After
`buffer_copy_on_device(0, A, B, 512, 0, 512)` bytes `[0, 512)` of `B` hold the old bytes
`[512, 1024)` of `A`, and bytes `[512, 1024)` of `B` are what they were, so byte 512 of `B`
differs from the old byte 0 of `A`: the remote `memcpy` reads at `A.pointer + ob` and writes
at `B.pointer + oa`. -/
theorem copy_on_device_at_witness :
    (buffer_copy_on_device w_two 0 0x10000 0x20000 512 0 512).calls =
      [Call.remote_memcpy 0 (0x5000 + 0) (0x4000 + 512) 512] ∧
    ∃ w1, (buffer_copy_on_device w_two 0 0x10000 0x20000 512 0 512).world = some w1 ∧
      (∀ i, i < 512 → w1.dev 0 (0x5000 + i) = w_two.dev 0 (0x4000 + 512 + i)) ∧
      (∀ i, i < 512 → w1.dev 0 (0x5000 + 512 + i) = w_two.dev 0 (0x5000 + 512 + i)) ∧
      w1.dev 0 (0x5000 + 512) ≠ w_two.dev 0 (0x4000 + 0) := by
  have h := buffer_copy_on_device_effect w_two 0 0x10000 1024 0x4000 0x20000 1024 0x5000
    512 0 512 w_two_live_src w_two_live_dst (by decide) (by decide)
  obtain ⟨hc, w1, hw, -, -, hin, hout⟩ := h
  refine ⟨hc, w1, hw, ?_, ?_, ?_⟩
  · intro i hi
    simpa using hin i hi
  · intro i hi
    exact hout (0x5000 + 512 + i) (Or.inr (by omega))
  · rw [hout (0x5000 + 512) (Or.inr (by omega))]
    decide

/-- C7 (the code at a failing input): live handles `A = 0x10000` (1024 bytes), `B = 0x20000`
(512 bytes at device address `0x5000`) and `C = 0x30000` (512 bytes at device address
`0x5200`) on device 0.  `buffer_copy_on_device(0, A, B, 512, 512, 0)` meets the documented
precondition (`512 + 512 ≤ size(A)`, `0 + 512 ≤ size(B)`), and every byte it writes lies in
the allocation of `C`, outside `[B.pointer, B.pointer + 512)`; byte 0 of `C` changes. -/
theorem copy_on_device_writes_other_handle :
    Live w_three 0 0x10000 1024 0x4000 ∧ Live w_three 0 0x20000 512 0x5000 ∧
    Live w_three 0 0x30000 512 0x5200 ∧ 512 + 512 ≤ 1024 ∧ 0 + 512 ≤ 512 ∧
    (buffer_copy_on_device w_three 0 0x10000 0x20000 512 512 0).calls =
      [Call.remote_memcpy 0 (0x5000 + 512) (0x4000 + 0) 512] ∧
    ∃ w1, (buffer_copy_on_device w_three 0 0x10000 0x20000 512 512 0).world = some w1 ∧
      (∀ i, i < 512 → w1.dev 0 (0x5200 + i) = w_three.dev 0 (0x4000 + i)) ∧
      (∀ x, x < 0x5000 + 512 → w1.dev 0 x = w_three.dev 0 x) ∧
      w1.dev 0 0x5200 ≠ w_three.dev 0 0x5200 := by
  have h := buffer_copy_on_device_effect w_three 0 0x10000 1024 0x4000 0x20000 512 0x5000
    512 512 0 w_three_live_src w_three_live_dst (by decide) (by decide)
  obtain ⟨hc, w1, hw, -, -, hin, hout⟩ := h
  refine ⟨w_three_live_src, w_three_live_dst, w_three_live_other, by decide, by decide,
    hc, w1, hw, ?_, ?_, ?_⟩
  · intro i hi
    simpa using hin i hi
  · intro x hx
    exact hout x (Or.inl hx)
  · have h0 := hin 0 (by decide)
    simp only [Nat.add_zero] at h0
    rw [show (0x5200 : Nat) = 0x5000 + 512 from rfl, h0]
    decide

/-- C2 (the code at a failing input): live handle `H = 0x10000` of 1024 bytes on device 0,
raw host destination `D = 0x9000`, `n = 256`, `offset_device = 512`, `offset_host = 0`.
`buffer_copy_to_host(0, H, D, 256, 512, 0)` issues an `out` clause whose device-side source is
the proxy address `H + offset_host` and whose host destination is `D + offset_device`: host
bytes `[512, 768)` of `D` receive device bytes `[0, 256)` of `H`, host bytes `[0, 256)` of `D`
keep their value, and byte 0 of `D` differs from device byte 512 of `H`. -/
theorem copy_to_host_offsets_at_input :
    (buffer_copy_to_host w_one 0 0x10000 0x9000 256 512 0).calls =
      [Call.offload ⟨0, Clause.copy_out, 0x10000 + 0, 256, some (0x9000 + 512),
        none, false, false⟩] ∧
    ∃ w1, (buffer_copy_to_host w_one 0 0x10000 0x9000 256 512 0).world = some w1 ∧
      (∀ i, i < 256 → w1.host (0x9000 + 512 + i) = w_one.dev 0 (0x4000 + 0 + i)) ∧
      (∀ i, i < 256 → w1.host (0x9000 + 0 + i) = w_one.host (0x9000 + 0 + i)) ∧
      w1.host (0x9000 + 0) ≠ w_one.dev 0 (0x4000 + 512) := by
  have h := buffer_copy_to_host_effect w_one 0 0x10000 1024 0x4000 0x9000 256 512 0
    w_one_table w_one_live (by decide) (by decide)
  obtain ⟨hc, w1, hw, -, -, hin, hout⟩ := h
  refine ⟨hc, w1, hw, hin, ?_, ?_⟩
  · intro i hi
    exact hout (0x9000 + 0 + i) (Or.inl (by omega))
  · rw [hout (0x9000 + 0) (Or.inl (by omega))]
    decide

/-- C3 (the code at a failing input): live handle `H = 0x10000` of size 1024 on device 0, host
buffer `X = 0x8000` holding the pattern `0xAB`, fresh zero host buffer `Y = 0x9000`, `n = 256`,
`offset_host = 0`, `offset_device = 512`.  After
`buffer_copy_to_target(0, X, H, 256, 0, 512)` and `buffer_copy_to_host(0, H, Y, 256, 512, 0)`
byte `offset_host` of `Y` is still 0 while byte `offset_host` of `X` is `0xAB`; the second
call wrote bytes `[512, 768)` of `Y`, with the device bytes `[0, 256)` of `H`. -/
theorem round_trip_distinct_offsets :
    ∃ w1 w2, (buffer_copy_to_target w_pattern 0 0x8000 0x10000 256 0 512).world = some w1 ∧
      (buffer_copy_to_host w1 0 0x10000 0x9000 256 512 0).world = some w2 ∧
      w2.host (0x9000 + 0) = 0 ∧ w_pattern.host (0x8000 + 0) = 0xAB ∧
      (∀ i, i < 256 → w2.host (0x9000 + 512 + i) = w_pattern.dev 0 (0x4000 + 0 + i)) := by
  have h := buffer_copy_to_target_effect w_pattern 0 0x8000 0x10000 1024 0x4000 256 0 512
    w_pattern_table w_pattern_live (by decide) (by decide)
  obtain ⟨-, w1, hw1, hh1, ht1, -, hout1, -⟩ := h
  have hl1 := live_of_eq w_pattern w1 0 0x10000 1024 0x4000 hh1 ht1 w_pattern_live
  have hk1 : TableOk (w1.table 0) := by rw [ht1]; exact w_pattern_table
  have h2 := buffer_copy_to_host_effect w1 0 0x10000 1024 0x4000 0x9000 256 512 0
    hk1 hl1 (by decide) (by decide)
  obtain ⟨-, w2, hw2, -, -, hin2, hout2⟩ := h2
  refine ⟨w1, w2, hw1, hw2, ?_, by decide, ?_⟩
  · rw [hout2 (0x9000 + 0) (Or.inl (by omega)), hh1]
    decide
  · intro i hi
    rw [hin2 i hi]
    exact hout1 (0x4000 + 0 + i) (Or.inl (by omega))

/-- C10: the `debug` line of `buffer_copy_to_target` and of `buffer_copy_to_host` is the only
place where the word read from the descriptor (`dptr`) and the raw pointer `hptr` go; the
transfer clause each function issues is built from the arguments alone, so two runs with the
same arguments in states with different descriptor contents issue the same request. -/
theorem transfer_request_ignores_descriptor (w1 w2 : World) (device : Int)
    (src dst size off1 off2 : Nat) :
    (buffer_copy_to_target w1 device src dst size off1 off2).calls =
      (buffer_copy_to_target w2 device src dst size off1 off2).calls ∧
    (buffer_copy_to_host w1 device src dst size off1 off2).calls =
      (buffer_copy_to_host w2 device src dst size off1 off2).calls ∧
    (buffer_copy_to_target w1 device src dst size off1 off2).calls =
      [Call.offload ⟨device, Clause.copy_in, ptr_add src off1, size, some (ptr_add dst off2),
        none, false, false⟩] ∧
    (buffer_copy_to_host w1 device src dst size off1 off2).calls =
      [Call.offload ⟨device, Clause.copy_out, ptr_add src off2, size, some (ptr_add dst off1),
        none, false, false⟩] ∧
    (buffer_copy_to_target w1 device src dst size off1 off2).debug =
      [size, src, load64 w1.host dst] ∧
    (buffer_copy_to_host w1 device src dst size off1 off2).debug =
      [size, load64 w1.host src, dst] :=
  ⟨rfl, rfl, rfl, rfl, rfl, rfl⟩

end pymic
